import Mathlib

/-!
Shallow embedding of the BCFind blob-detection core (`bcfind/blob_dog.py`):
the `blob_dog` scale-space detector skeleton, the `BlobDoG` class with its
`evaluate`, `_objective` checkpoint logic and `fit` optimizer loop, and the
metrics aggregation used by the objective.

Numeric values are modelled as rationals.  The per-axis quantity
`log(max_sigma_d / min_sigma_d) / log(sigma_ratio)` computed by numpy at
blob_dog.py line 88 is taken as an input vector `logRatios` (its entries are
nonnegative exactly when `min_sigma ≤ max_sigma` per axis and
`sigma_ratio > 1`).  Gaussian filtering and `peak_local_max` are external
kernels: they enter as a function `peaks : ℕ → List (List ℚ)` giving the
local-maxima coordinates found at each scale pair, and `skimage`'s
`_prune_blobs` as an abstract row-selecting function `prune`.
-/

namespace BCFind

/-- Python's `int()` conversion on a rational: truncation toward zero. -/
def pyInt (q : ℚ) : ℤ := if 0 ≤ q then ⌊q⌋ else ⌈q⌉

/-- `np.mean` of a list of rationals. -/
def npMean (l : List ℚ) : ℚ := l.sum / l.length

/-- The scale count `k` of `blob_dog` (blob_dog.py line 88):
`k = int(np.mean(np.log(max_sigma / min_sigma) / np.log(sigma_ratio) + 1))`,
parametrized by the per-axis log-ratio vector. -/
def blobDogK (logRatios : List ℚ) : ℤ := pyInt (npMean (logRatios.map (· + 1)))

/-- The scale count as the spec's words state it: `k = round(mean(... + 1))`,
i.e. rounding to the nearest integer instead of `int()` truncation.  Kept only
to compare with `blobDogK`, which is the code's computation. -/
def blobDogKRound (logRatios : List ℚ) : ℤ := round (npMean (logRatios.map (· + 1)))

/-- The geometric progression of sigma vectors (blob_dog.py lines 91-92):
`sigma_list = [min_sigma * sigma_ratio**i for i in range(k + 1)]`. -/
def sigma_list (minSigma : List ℚ) (ratio : ℚ) (k : ℕ) : List (List ℚ) :=
  (List.range (k + 1)).map (fun i => minSigma.map (fun s => s * ratio ^ i))

/-- A `min_sigma`/`max_sigma` argument of `blob_dog`: a scalar or a sequence
of per-axis scalars (blob_dog.py lines 76-85). -/
inductive SigmaArg where
  | scalar (s : ℚ)
  | vector (v : List ℚ)
deriving DecidableEq, Repr

/-- `scalar_sigma = np.isscalar(max_sigma) and np.isscalar(min_sigma)`
(blob_dog.py line 76). -/
def scalarSigmaOf : SigmaArg → SigmaArg → Bool
  | .scalar _, .scalar _ => true
  | _, _ => false

/-- Broadcast of a scalar sigma to one value per image axis
(blob_dog.py lines 78-85). -/
def broadcastSigma (ndim : ℕ) : SigmaArg → List ℚ
  | .scalar s => List.replicate ndim s
  | .vector v => v

/-- A two-dimensional numpy array of rationals: the list of rows together
with the column count of the shape (needed to state the shape of the
zero-row array `np.empty((0, 3))`). -/
structure NDArray2 where
  rows : List (List ℚ)
  cols : ℕ
deriving DecidableEq, Repr

/-- `cp.concatenate` over a list of row-lists: raises `ValueError` when the
list of arrays is empty, otherwise stacks all rows. -/
def cpConcatenate {α : Type} (ls : List (List α)) : Except String (List α) :=
  if ls.isEmpty then .error "ValueError: need at least one array to concatenate"
  else .ok ls.flatten

/-- The `blob_dog` function (blob_dog.py lines 22-134), shallowly embedded:

* `k` and `sigma_list` as in the source (lines 88-92);
* the per-scale loop (lines 96-107) collects, for each scale pair `i < k`,
  the local maxima `peaks i` tagged with the scale index `i` (the appended
  index column of `cp.c_` is modelled as the second pair component);
* `cp.concatenate` over the per-scale arrays (line 109);
* the empty-detection catch returning `np.empty((0, 3))` (lines 116-118);
* the translation of the index column into sigma values, taking one column
  in `scalar_sigma` mode (lines 122-129);
* final pruning by the external `_prune_blobs` (line 132), abstracted as
  `prune`. -/
def blob_dog (ndim : ℕ) (minArg maxArg : SigmaArg) (logRatios : List ℚ) (ratio : ℚ)
    (peaks : ℕ → List (List ℚ)) (prune : NDArray2 → NDArray2) :
    Except String NDArray2 :=
  let scalarSigma := scalarSigmaOf minArg maxArg
  let minSigma := broadcastSigma ndim minArg
  let k := (blobDogK logRatios).toNat
  let sigmaList := sigma_list minSigma ratio k
  let perScale := (List.range k).map (fun i => (peaks i).map (fun c => (c, i)))
  match cpConcatenate perScale with
  | .error e => .error e
  | .ok detected =>
    if detected.isEmpty then .ok ⟨[], 3⟩
    else
      .ok (prune ⟨detected.map (fun ci =>
          ci.1 ++ (if scalarSigma then (sigmaList.getD ci.2 []).take 1
                   else sigmaList.getD ci.2 [])),
        ndim + (if scalarSigma then 1 else ndim)⟩)

/-! ### The `BlobDoG` class (blob_dog.py lines 137-407) -/

/-- The five detection parameters of `BlobDoG`
(blob_dog.py lines 148-152 and 154-169). -/
structure Params where
  min_rad : ℚ
  max_rad : ℚ
  sigma_ratio : ℚ
  overlap : ℚ
  threshold : ℚ
deriving DecidableEq, Repr

/-- The state of a `BlobDoG` instance (blob_dog.py lines 138-152).
`exclude_border` is kept abstractly; it plays no role in the embedded
operations. -/
structure Detector where
  D : ℕ
  dim_resolution : List ℚ
  exclude_border : Option ℕ
  train_step : ℕ
  min_rad : ℚ
  max_rad : ℚ
  sigma_ratio : ℚ
  overlap : ℚ
  threshold : ℚ
deriving DecidableEq, Repr

/-- `BlobDoG.__init__` (blob_dog.py lines 138-152): dimension resolution is
taken already broadcast to `n_dim` entries; default parameters
`min_rad = 7`, `max_rad = 15`, `sigma_ratio = 1.4`, `overlap = 0.8`,
`threshold = 0.05`. -/
def BlobDoG_init (n_dim : ℕ) (dim_resolution : List ℚ) (exclude_border : Option ℕ) :
    Detector :=
  ⟨n_dim, dim_resolution, exclude_border, 0, 7, 15, 14/10, 8/10, 5/100⟩

/-- `BlobDoG.get_parameters` (blob_dog.py lines 154-162). -/
def get_parameters (d : Detector) : Params :=
  ⟨d.min_rad, d.max_rad, d.sigma_ratio, d.overlap, d.threshold⟩

/-- `BlobDoG.set_parameters` (blob_dog.py lines 164-169). -/
def set_parameters (d : Detector) (p : Params) : Detector :=
  { d with min_rad := p.min_rad, max_rad := p.max_rad,
           sigma_ratio := p.sigma_ratio, overlap := p.overlap,
           threshold := p.threshold }

/-- A label produced by the bipartite matching of predicted against true
blobs: true positive, false positive or false negative. -/
inductive MatchLabel where
  | TP
  | FP
  | FN
deriving DecidableEq, Repr

/-- The count row built by `BlobDoG.evaluate` in `counts` mode
(blob_dog.py lines 252-257): TP, FP, FN, total predicted, total true. -/
structure Counts where
  TP : ℕ
  FP : ℕ
  FN : ℕ
  tot_pred : ℕ
  tot_true : ℕ
deriving DecidableEq, Repr

/-- Modelled from the spec: `precision` of the `metrics` function of
`bcfind/utils.py`, which is not under `src/`.  Spec section 4.4:
`precision = TP/(TP+FP)`, defined as 0 when the denominator is 0. -/
def precisionOf (c : Counts) : ℚ :=
  if c.TP + c.FP = 0 then 0 else (c.TP : ℚ) / ((c.TP : ℚ) + (c.FP : ℚ))

/-- Modelled from the spec: `recall` of the `metrics` function of
`bcfind/utils.py`, which is not under `src/`.  Spec section 4.4:
`recall = TP/(TP+FN)`, defined as 0 when the denominator is 0. -/
def recallOf (c : Counts) : ℚ :=
  if c.TP + c.FN = 0 then 0 else (c.TP : ℚ) / ((c.TP : ℚ) + (c.FN : ℚ))

/-- Modelled from the spec: `f1` of the `metrics` function of
`bcfind/utils.py`, which is not under `src/`.  Spec section 4.4:
`F1 = 2·precision·recall/(precision+recall)`, defined as 0 when the
denominator is 0. -/
def f1Of (c : Counts) : ℚ :=
  if precisionOf c + recallOf c = 0 then 0
  else 2 * precisionOf c * recallOf c / (precisionOf c + recallOf c)

/-- Modelled from the spec: `accuracy` of the `metrics` function of
`bcfind/utils.py`, which is not under `src/`.  The spec names accuracy among
the aggregated metrics without a formula; the usual detection accuracy
`TP/(TP+FP+FN)` is used, defined as 0 when the denominator is 0. -/
def accuracyOf (c : Counts) : ℚ :=
  if c.TP + c.FP + c.FN = 0 then 0
  else (c.TP : ℚ) / ((c.TP : ℚ) + (c.FP : ℚ) + (c.FN : ℚ))

/-- Column-wise sum of count rows: the `pd.concat` of per-image count rows
followed by the column sums that `metrics` performs on them (spec section
4.4: counts sum across all inputs before ratios are computed). -/
def sumCounts (rows : List Counts) : Counts :=
  ⟨(rows.map (·.TP)).sum, (rows.map (·.FP)).sum, (rows.map (·.FN)).sum,
   (rows.map (·.tot_pred)).sum, (rows.map (·.tot_true)).sum⟩

/-- The objective aggregation of `BlobDoG._objective`
(blob_dog.py lines 341-342): `res = pd.concat(res); f1 = metrics(res)["f1"]`,
with `metrics` modelled from the spec (it lives in `bcfind/utils.py`, not
under `src/`): counts are summed across the dataset elements and the F1
score of the summed counts is returned. -/
def objectiveScore (res : List Counts) : ℚ := f1Of (sumCounts res)

/-- The result of `BlobDoG.evaluate`: a labelled table (`complete`), a count
row (`counts`) or a scalar metric. -/
inductive EvalOutput where
  | complete (labels : List MatchLabel)
  | counts (c : Counts)
  | metric (v : ℚ)
deriving DecidableEq, Repr

/-- The admitted evaluation types of `BlobDoG.evaluate`
(blob_dog.py line 240). -/
def admitted_types : List String := ["complete", "counts", "f1", "acc", "prec", "rec"]

/-- The scalar metric selected by `BlobDoG.evaluate`
(blob_dog.py line 261), with the metric formulas modelled from the spec. -/
def metricValue (c : Counts) : String → ℚ
  | "f1" => f1Of c
  | "acc" => accuracyOf c
  | "prec" => precisionOf c
  | "rec" => recallOf c
  | _ => 0

/-- `BlobDoG.evaluate` (blob_dog.py lines 218-261).  The assert at lines
241-243 fires before `bipartite_match` is called, so the matching step is
kept lazy: `matchFn` (the `bipartite_match` call of lines 245-247, whose
source is not under `src/`) is forced only after validation passes.
`nPred` and `nTrue` are `y_pred.shape[0]` and `y_true.shape[0]`. -/
def evaluate (matchFn : Unit → List MatchLabel) (nPred nTrue : ℕ)
    (evaluation_type : String) : Except String EvalOutput :=
  if evaluation_type ∈ admitted_types then
    let labeled := matchFn ()
    if evaluation_type = "complete" then .ok (.complete labeled)
    else
      let c : Counts := ⟨(labeled.filter (· = .TP)).length,
                         (labeled.filter (· = .FP)).length,
                         (labeled.filter (· = .FN)).length, nPred, nTrue⟩
      if evaluation_type = "counts" then .ok (.counts c)
      else .ok (.metric (metricValue c evaluation_type))
  else .error "AssertionError: Wrong evaluation_type provided."

/-! ### The optimizer: `_objective` checkpointing and `fit`
(blob_dog.py lines 304-407) -/

/-- A point of the hyperopt search space (blob_dog.py lines 391-397): the
parameter dictionary handed to `_objective` carries `min_max_rad_diff`
instead of `max_rad`. -/
structure SampledParams where
  min_rad : ℚ
  min_max_rad_diff : ℚ
  sigma_ratio : ℚ
  overlap : ℚ
  threshold : ℚ
deriving DecidableEq, Repr

/-- `parameters["max_rad"] = parameters["min_rad"] + parameters["min_max_rad_diff"]`
(blob_dog.py lines 314 and 406): the detection parameters actually used for
a sampled point. -/
def withMaxRad (sp : SampledParams) : Params :=
  ⟨sp.min_rad, sp.min_rad + sp.min_max_rad_diff, sp.sigma_ratio, sp.overlap,
   sp.threshold⟩

/-- The content of the checkpoint file `BlobDoG_parameters.json`: the
parameter dictionary plus the keys `f1` and `step`
(blob_dog.py lines 346-348). -/
structure CheckpointState where
  params : Params
  f1 : ℚ
  step : ℕ
deriving DecidableEq, Repr

/-- The checkpoint block of `BlobDoG._objective` (blob_dog.py lines 316-321
and 344-357) for one evaluation, given the current `self.train_step` (already
incremented at line 313) and the file's current content (`none` when the
file does not exist).  Returns the file content after the call and whether a
write occurred:

* at `train_step == 1` the state is written unconditionally (lines 345-350);
* at later steps the state loaded at lines 319-321 is compared and the file
  is overwritten only when `f1 > state["f1"]` (lines 352-357);
* at a later step with no existing file, the comparison at line 352 reads
  the never-assigned local `state`: a `NameError`. -/
def objectiveCheckpoint (train_step : ℕ) (file : Option CheckpointState)
    (p : Params) (f1 : ℚ) : Except String (Option CheckpointState × Bool) :=
  if train_step = 1 then .ok (some ⟨p, f1, train_step⟩, true)
  else
    match file with
    | some st =>
        if f1 > st.f1 then .ok (some ⟨p, f1, train_step⟩, true)
        else .ok (some st, false)
    | none => .error "NameError: name state is not defined"

/-- The sequence of `BlobDoG._objective` calls performed by one `fit` run
(blob_dog.py lines 304-358), one per sampled candidate.  Each call
increments `self.train_step` (line 313), derives `max_rad` (line 314),
computes the aggregated f1 of the candidate (lines 323-342, abstracted as
the pure function `f1s` of the derived parameters since the dataset is
fixed), and runs the checkpoint block when a checkpoint directory was given.
Returns the detector after all calls, the final file content, and the list
of f1 values written to the file, in write order. -/
def runObjectives (f1s : Params → ℚ) (useCk : Bool) :
    Detector → Option CheckpointState → List SampledParams →
    Except String (Detector × Option CheckpointState × List ℚ)
  | d, file, [] => .ok (d, file, [])
  | d, file, sp :: rest =>
    let d' := { d with train_step := d.train_step + 1 }
    let p := withMaxRad sp
    let f1 := f1s p
    if useCk then
      match objectiveCheckpoint d'.train_step file p f1 with
      | .error e => .error e
      | .ok (file', wrote) =>
        match runObjectives f1s useCk d' file' rest with
        | .error e => .error e
        | .ok (dEnd, fileEnd, writes) =>
            .ok (dEnd, fileEnd, if wrote then f1 :: writes else writes)
    else runObjectives f1s useCk d' file rest

/-- Modelled from hyperopt's `fmin` return contract (hyperopt is a
third-party dependency): with `return_argmin` (the default), `fmin` returns
the evaluated space point with the smallest loss, and raises
`Exception("There are no evaluation tasks, cannot return argmin of task
losses.")` when no trial was evaluated — in particular when
`max_evals = 0`. -/
def fminArgmin (loss : SampledParams → ℚ) :
    List SampledParams → Except String SampledParams
  | [] => .error "Exception: There are no evaluation tasks, cannot return argmin of task losses."
  | sp :: rest =>
      .ok (rest.foldl (fun best c => if loss c < loss best then c else best) sp)

/-- `BlobDoG.fit` (blob_dog.py lines 360-407): run the objective on each of
the `n_iter` candidates drawn by the TPE search (`draws`; hyperopt evaluates
exactly `max_evals = n_iter` points), obtain from `fmin` the point with the
best (smallest) loss `-f1`, derive its `max_rad` (line 406) and install it
with `set_parameters` (line 407).  Returns the final detector and checkpoint
file content. -/
def fit (d : Detector) (f1s : Params → ℚ) (useCk : Bool)
    (file : Option CheckpointState) (draws : List SampledParams) :
    Except String (Detector × Option CheckpointState) :=
  match runObjectives f1s useCk d file draws with
  | .error e => .error e
  | .ok (d', file', _) =>
    match fminArgmin (fun sp => -(f1s (withMaxRad sp))) draws with
    | .error e => .error e
    | .ok best => .ok (set_parameters d' (withMaxRad best), file')

/-! ### Helper lemmas -/

lemma pyInt_eq_floor (q : ℚ) (h : 0 ≤ q) : pyInt q = ⌊q⌋ := by
  simp [pyInt, h]

lemma sum_map_add_one (l : List ℚ) : (l.map (· + 1)).sum = l.sum + l.length := by
  induction l with
  | nil => simp
  | cons a t ih => simp [ih]; ring

lemma one_le_npMean_map_add_one (l : List ℚ) (hne : l ≠ [])
    (hnn : ∀ r ∈ l, 0 ≤ r) : 1 ≤ npMean (l.map (· + 1)) := by
  have hlen : 0 < (l.length : ℚ) := by
    have := List.length_pos.mpr hne
    exact_mod_cast this
  have hsum : 0 ≤ l.sum := List.sum_nonneg hnn
  rw [npMean, List.length_map, sum_map_add_one]
  rw [one_le_div hlen]
  linarith

lemma one_le_blobDogK (l : List ℚ) (hne : l ≠ []) (hnn : ∀ r ∈ l, 0 ≤ r) :
    1 ≤ blobDogK l := by
  have h1 := one_le_npMean_map_add_one l hne hnn
  rw [blobDogK, pyInt_eq_floor _ (by linarith)]
  exact_mod_cast Int.le_floor.mpr (by exact_mod_cast h1)

lemma sigma_list_length (m : List ℚ) (r : ℚ) (k : ℕ) :
    (sigma_list m r k).length = k + 1 := by
  simp [sigma_list]

lemma sigma_list_getD (m : List ℚ) (r : ℚ) (k i : ℕ) (h : i < k + 1) :
    (sigma_list m r k).getD i [] = m.map (fun s => s * r ^ i) := by
  rw [List.getD_eq_getElem _ _ (by simpa [sigma_list_length] using h)]
  simp [sigma_list]

/-- Shared core of claims C6 and C10: when every scale pair yields no local
maxima (and the sigma parameters are consistent, so that at least one scale
pair exists), `blob_dog` takes the empty-detection branch and returns the
zero-row, three-column array. -/
lemma blob_dog_no_peaks (ndim : ℕ) (minArg maxArg : SigmaArg) (logRatios : List ℚ)
    (ratio : ℚ) (peaks : ℕ → List (List ℚ)) (prune : NDArray2 → NDArray2)
    (hne : logRatios ≠ []) (hnn : ∀ r ∈ logRatios, 0 ≤ r)
    (hpeaks : ∀ i, peaks i = []) :
    blob_dog ndim minArg maxArg logRatios ratio peaks prune = .ok ⟨[], 3⟩ := by
  have hk : 1 ≤ (blobDogK logRatios).toNat := by
    have := one_le_blobDogK logRatios hne hnn
    omega
  simp only [blob_dog]
  have hmap : (List.range (blobDogK logRatios).toNat).map
      (fun i => (peaks i).map (fun c => (c, i)))
      = List.replicate (blobDogK logRatios).toNat [] := by
    rw [List.eq_replicate_iff]
    constructor
    · simp
    · intro b hb
      obtain ⟨i, _, rfl⟩ := List.mem_map.mp hb
      simp [hpeaks i]
  rw [hmap, cpConcatenate]
  have : (List.replicate (blobDogK logRatios).toNat ([] : List (List ℚ × ℕ))).isEmpty
      = false := by
    rw [List.isEmpty_eq_false_iff_exists_mem]
    exact ⟨[], List.mem_replicate.mpr ⟨by omega, rfl⟩⟩
  simp [this]

end BCFind

namespace BCFind

/-- C1 (counterexample): at the per-axis log-ratio value 1/2 — reached, for
instance, by `min_sigma = 1`, `max_sigma = √2`, `sigma_ratio = 2` — the
scale count computed by `blob_dog` line 88 with Python's `int()` truncation
is 1, while the spec's formula `round(mean(... ) + 1)` gives 2: the claim
that `k` is obtained by integer rounding is false on the code. -/
theorem C1_counterexample_scale_count_not_rounded :
    blobDogK [(1 : ℚ)/2] = 1 ∧ blobDogKRound [(1 : ℚ)/2] = 2 ∧
    blobDogK [(1 : ℚ)/2] ≠ blobDogKRound [(1 : ℚ)/2] := by
  refine ⟨?_, ?_, ?_⟩ <;>
    norm_num [blobDogK, blobDogKRound, pyInt, npMean, round_eq]

/-- C1 (amended): for positive sigma vectors with `minSigma ≤ maxSigma` per
axis and `sigmaRatio > 1` (so every per-axis log ratio is nonnegative),
`blob_dog` builds a geometric progression of `k + 1` sigma vectors — entry
`i` being `minSigma * sigmaRatio ^ i` — where `k` is obtained by Python
`int()` TRUNCATION of `mean(log(maxSigma/minSigma)/log(sigmaRatio) + 1)`
(equal to the floor, the argument being nonnegative), not by rounding to the
nearest integer; the computation is a deterministic function of the
parameters. -/
theorem C1_scale_count_truncated (logRatios minSigma : List ℚ) (ratio : ℚ)
    (hne : logRatios ≠ []) (hnn : ∀ r ∈ logRatios, 0 ≤ r) :
    blobDogK logRatios = ⌊npMean (logRatios.map (· + 1))⌋ ∧
    (sigma_list minSigma ratio (blobDogK logRatios).toNat).length
      = (blobDogK logRatios).toNat + 1 ∧
    ∀ i < (blobDogK logRatios).toNat + 1,
      (sigma_list minSigma ratio (blobDogK logRatios).toNat).getD i []
        = minSigma.map (fun s => s * ratio ^ i) := by
  refine ⟨?_, sigma_list_length _ _ _, fun i hi => sigma_list_getD _ _ _ _ hi⟩
  have h1 := one_le_npMean_map_add_one logRatios hne hnn
  exact pyInt_eq_floor _ (by linarith)

/-- C1 (witness): the amended theorem at `logRatios = [1/2]`,
`minSigma = [1, 1]`, `ratio = 2`. -/
theorem C1_scale_count_truncated_witness :
    blobDogK [(1 : ℚ)/2] = ⌊npMean ([(1 : ℚ)/2].map (· + 1))⌋ ∧
    (sigma_list [1, 1] 2 (blobDogK [(1 : ℚ)/2]).toNat).length
      = (blobDogK [(1 : ℚ)/2]).toNat + 1 ∧
    ∀ i < (blobDogK [(1 : ℚ)/2]).toNat + 1,
      (sigma_list [1, 1] 2 (blobDogK [(1 : ℚ)/2]).toNat).getD i []
        = [1, 1].map (fun s => s * (2 : ℚ) ^ i) :=
  C1_scale_count_truncated [(1 : ℚ)/2] [1, 1] 2 (by simp) (by norm_num)

/-- C6: on an input image with no local maxima at any scale (and consistent
sigma parameters, i.e. nonnegative per-axis log ratios, as hold whenever
`minSigma ≤ maxSigma` and `sigmaRatio > 1`), `blob_dog` returns the empty
result rather than raising: lines 116-118 catch the all-empty concatenation
and return `np.empty((0, 3))`. -/
theorem C6_empty_detection_not_error (ndim : ℕ) (minArg maxArg : SigmaArg)
    (logRatios : List ℚ) (ratio : ℚ) (peaks : ℕ → List (List ℚ))
    (prune : NDArray2 → NDArray2)
    (hne : logRatios ≠ []) (hnn : ∀ r ∈ logRatios, 0 ≤ r)
    (hpeaks : ∀ i, peaks i = []) :
    blob_dog ndim minArg maxArg logRatios ratio peaks prune
      = .ok ⟨[], 3⟩ :=
  blob_dog_no_peaks ndim minArg maxArg logRatios ratio peaks prune hne hnn hpeaks

/-- C6 (witness): a 2-dimensional image with no peaks at either scale,
scalar sigmas with log ratio 1. -/
theorem C6_empty_detection_not_error_witness :
    blob_dog 2 (.scalar 1) (.scalar 2) [1] 2 (fun _ => []) id
      = .ok ⟨[], 3⟩ :=
  C6_empty_detection_not_error 2 (.scalar 1) (.scalar 2) [1] 2 (fun _ => []) id
    (by simp) (by norm_num) (fun _ => rfl)

/-- C10: when no candidate is found at any scale, `blob_dog` returns the
zero-row array with exactly 3 columns (`np.empty((0, 3))`, line 118),
whatever the image dimensionality and whether the sigmas were scalar or
per-axis; in particular for a 3-dimensional image this column count differs
from the documented non-empty widths `ndim + 1` and `ndim + ndim`. -/
theorem C10_empty_result_three_columns (ndim : ℕ) (minArg maxArg : SigmaArg)
    (logRatios : List ℚ) (ratio : ℚ) (peaks : ℕ → List (List ℚ))
    (prune : NDArray2 → NDArray2)
    (hne : logRatios ≠ []) (hnn : ∀ r ∈ logRatios, 0 ≤ r)
    (hpeaks : ∀ i, peaks i = []) :
    ∃ arr, blob_dog ndim minArg maxArg logRatios ratio peaks prune = .ok arr ∧
      arr.rows = [] ∧ arr.cols = 3 ∧
      (ndim = 3 → arr.cols ≠ ndim + 1 ∧ arr.cols ≠ ndim + ndim) := by
  refine ⟨⟨[], 3⟩,
    blob_dog_no_peaks ndim minArg maxArg logRatios ratio peaks prune hne hnn hpeaks,
    rfl, rfl, ?_⟩
  rintro rfl
  exact ⟨by norm_num, by norm_num⟩

/-- C7: for a non-empty detection result, each returned row consists of the
`ndim` peak coordinates followed by the sigma columns: exactly one sigma
column when both `min_sigma` and `max_sigma` were scalars (`scalar_sigma`
mode, `ndim + 1` columns total), one per image axis otherwise
(`ndim + ndim` columns total).  `prune` is `skimage`'s `_prune_blobs`,
whose contract is to select a subset of the rows without touching columns. -/
theorem C7_sigma_columns (ndim : ℕ) (minArg maxArg : SigmaArg)
    (logRatios : List ℚ) (ratio : ℚ) (peaks : ℕ → List (List ℚ))
    (prune : NDArray2 → NDArray2) (arr : NDArray2)
    (hndim : 1 ≤ ndim)
    (hmin : (broadcastSigma ndim minArg).length = ndim)
    (hpk : ∀ i, ∀ c ∈ peaks i, c.length = ndim)
    (hprune : ∀ a : NDArray2,
      (∀ r ∈ (prune a).rows, r ∈ a.rows) ∧ (prune a).cols = a.cols)
    (hres : blob_dog ndim minArg maxArg logRatios ratio peaks prune = .ok arr)
    (hnonempty : arr.rows ≠ []) :
    arr.cols = ndim + (if scalarSigmaOf minArg maxArg then 1 else ndim) ∧
    ∀ row ∈ arr.rows, row.length = arr.cols := by
  simp only [blob_dog, cpConcatenate] at hres
  split at hres
  · exact absurd hres (by simp)
  next detected hkE =>
    have hdet : detected = ((List.range (blobDogK logRatios).toNat).map
        (fun i => (peaks i).map (fun c => (c, i)))).flatten := by
      split at hkE
      · cases hkE
      · cases hkE; rfl
    split at hres
    next hDet =>
      injection hres with hres
      rw [← hres] at hnonempty
      exact absurd rfl hnonempty
    next hDet =>
      injection hres with hres
      subst hres
      obtain ⟨hsub, hcols⟩ := hprune _
      rw [hcols]
      refine ⟨rfl, ?_⟩
      intro row hrow
      have hrow' := hsub row hrow
      simp only [NDArray2.rows] at hrow'
      rw [List.mem_map] at hrow'
      obtain ⟨ci, hci, rfl⟩ := hrow'
      rw [hdet, List.mem_flatten] at hci
      obtain ⟨l, hl, hcil⟩ := hci
      rw [List.mem_map] at hl
      obtain ⟨i, hi, rfl⟩ := hl
      rw [List.mem_map] at hcil
      obtain ⟨c, hc, rfl⟩ := hcil
      have hclen : c.length = ndim := hpk i c hc
      have hik : (i : ℕ) < (blobDogK logRatios).toNat + 1 :=
        Nat.lt_succ_of_lt (List.mem_range.mp hi)
      simp only [NDArray2.cols, List.length_append, hclen,
        sigma_list_getD (broadcastSigma ndim minArg) ratio _ i hik]
      cases scalarSigmaOf minArg maxArg with
      | true =>
          simp only [if_true, List.length_take, List.length_map, hmin]
          omega
      | false => simp [List.length_map, hmin]

/-- C7 (witness): a 2-dimensional image with scalar sigmas and one peak at
each of the two scale pairs; the result rows have `2 + 1` entries. -/
theorem C7_sigma_columns_witness :
    NDArray2.cols ⟨[[5, 6, 1], [5, 6, 2]], 3⟩
        = 2 + (if scalarSigmaOf (.scalar 1) (.scalar 2) then 1 else 2) ∧
    ∀ row ∈ NDArray2.rows ⟨[[5, 6, 1], [5, 6, 2]], 3⟩,
      row.length = NDArray2.cols ⟨[[5, 6, 1], [5, 6, 2]], 3⟩ :=
  C7_sigma_columns 2 (.scalar 1) (.scalar 2) [1, 1] 2 (fun _ => [[5, 6]]) id
    ⟨[[5, 6, 1], [5, 6, 2]], 3⟩ (by norm_num) (by simp [broadcastSigma])
    (by intro i c hc; simp at hc; simp [hc])
    (fun a => ⟨fun r hr => hr, rfl⟩)
    (by
      have hK : blobDogK [1, 1] = 2 := by norm_num [blobDogK, pyInt, npMean]
      simp [blob_dog, hK, cpConcatenate, sigma_list, List.range_succ,
        scalarSigmaOf, broadcastSigma])
    (by simp)

/-- C10 (witness): a 3-dimensional image, one scalar and one per-axis sigma,
no peaks anywhere. -/
theorem C10_empty_result_three_columns_witness :
    ∃ arr, blob_dog 3 (.scalar 1) (.vector [2, 2, 2]) [1, 1, 1] 2
        (fun _ => []) id = .ok arr ∧
      arr.rows = [] ∧ arr.cols = 3 ∧
      ((3 : ℕ) = 3 → arr.cols ≠ 3 + 1 ∧ arr.cols ≠ 3 + 3) :=
  C10_empty_result_three_columns 3 (.scalar 1) (.vector [2, 2, 2]) [1, 1, 1] 2
    (fun _ => []) id (by simp) (by norm_num) (fun _ => rfl)

/-- C5: `BlobDoG.evaluate` with an `evaluation_type` outside
`["complete", "counts", "f1", "acc", "prec", "rec"]` fails at entry with the
assertion error, before the bipartite matching (`matchFn`) is consulted —
the result is the same error for every matcher and input sizes — while for
every type inside the list no such error is raised. -/
theorem C5_evaluation_type_validated (evaluation_type : String) :
    (evaluation_type ∉ admitted_types →
      ∀ (matchFn : Unit → List MatchLabel) (nPred nTrue : ℕ),
        evaluate matchFn nPred nTrue evaluation_type
          = .error "AssertionError: Wrong evaluation_type provided.") ∧
    (evaluation_type ∈ admitted_types →
      ∀ (matchFn : Unit → List MatchLabel) (nPred nTrue : ℕ),
        ∃ out, evaluate matchFn nPred nTrue evaluation_type = .ok out) := by
  constructor
  · intro h matchFn nPred nTrue
    simp [evaluate, h]
  · intro h matchFn nPred nTrue
    simp only [evaluate, if_pos h]
    by_cases h1 : evaluation_type = "complete"
    · rw [if_pos h1]; exact ⟨_, rfl⟩
    · rw [if_neg h1]
      by_cases h2 : evaluation_type = "counts"
      · rw [if_pos h2]; exact ⟨_, rfl⟩
      · rw [if_neg h2]; exact ⟨_, rfl⟩

/-- C5 (witness): the unsupported type `"f2"` is rejected whatever the
matcher; the supported type `"f1"` is accepted. -/
theorem C5_evaluation_type_validated_witness :
    evaluate (fun _ => [.TP, .FP]) 2 1 "f2"
        = .error "AssertionError: Wrong evaluation_type provided." ∧
    ∃ out, evaluate (fun _ => [.TP, .FP]) 2 1 "f1" = .ok out :=
  ⟨(C5_evaluation_type_validated "f2").1 (by decide) (fun _ => [.TP, .FP]) 2 1,
   (C5_evaluation_type_validated "f1").2 (by decide) (fun _ => [.TP, .FP]) 2 1⟩

/-- C8: the aggregated objective score of `_objective` is invariant under
any permutation of the per-dataset-element count rows: the sequential
(`n_cpu == 1`) path and the thread-pool path — whose `as_completed`
collection can deliver the rows in any completion order — produce the same
f1, because the counts are summed before ratios are formed. -/
theorem C8_objective_order_independent (l1 l2 : List Counts)
    (h : l1.Perm l2) : objectiveScore l1 = objectiveScore l2 := by
  have hs : sumCounts l1 = sumCounts l2 := by
    simp only [sumCounts, (h.map _).sum_eq]
  rw [objectiveScore, objectiveScore, hs]

/-- C8 (witness): two orderings of the same two count rows get the same
score. -/
theorem C8_objective_order_independent_witness :
    objectiveScore [⟨1, 0, 0, 1, 1⟩, ⟨0, 1, 2, 3, 4⟩]
      = objectiveScore [⟨0, 1, 2, 3, 4⟩, ⟨1, 0, 0, 1, 1⟩] :=
  C8_objective_order_independent _ _ (List.Perm.swap _ _ _)

/-- C2 (counterexample): on the FIRST objective call (`train_step == 1`),
`_objective` overwrites the checkpoint unconditionally (blob_dog.py lines
345-350): here the persisted best score is 9/10 and the new score 1/10 is
strictly worse, yet the persisted state is replaced — refuting the claim
that the persisted state is overwritten only on strict improvement on every
evaluation including the first. -/
theorem C2_counterexample_first_call_overwrites :
    objectiveCheckpoint 1 (some ⟨⟨7, 15, 14/10, 8/10, 5/100⟩, 9/10, 5⟩)
        ⟨3, 5, 3/2, 1/2, 1/10⟩ (1/10)
      = .ok (some ⟨⟨3, 5, 3/2, 1/2, 1/10⟩, 1/10, 1⟩, true) ∧
    ((1 : ℚ)/10 < 9/10) := by
  exact ⟨rfl, by norm_num⟩

/-- C2 (amended): when a checkpoint path is given and the file holds state
`st`, the objective's checkpoint block behaves as follows: on the first call
(`train_step == 1`) it unconditionally overwrites the persisted state with
the new parameters, score and step — even when the new score is not better —
and on every later call it overwrites exactly when the new score is strictly
greater than the persisted one, leaving the file unchanged otherwise. -/
theorem C2_checkpoint_overwrite_policy (train_step : ℕ) (st : CheckpointState)
    (p : Params) (f1 : ℚ) :
    (train_step = 1 →
      objectiveCheckpoint train_step (some st) p f1
        = .ok (some ⟨p, f1, train_step⟩, true)) ∧
    (train_step ≠ 1 → st.f1 < f1 →
      objectiveCheckpoint train_step (some st) p f1
        = .ok (some ⟨p, f1, train_step⟩, true)) ∧
    (train_step ≠ 1 → ¬ st.f1 < f1 →
      objectiveCheckpoint train_step (some st) p f1 = .ok (some st, false)) := by
  refine ⟨fun h => by simp [objectiveCheckpoint, h],
          fun h h2 => by simp [objectiveCheckpoint, h, h2],
          fun h h2 => by simp [objectiveCheckpoint, h, h2]⟩

/-- C2 (witness): the amended behaviour at concrete inputs: step 1
overwrites a better persisted score; step 2 keeps the file when the new
score is worse. -/
theorem C2_checkpoint_overwrite_policy_witness :
    objectiveCheckpoint 1 (some ⟨⟨1, 2, 1, 1, 1⟩, 9/10, 4⟩) ⟨1, 2, 1, 1, 1⟩ (1/10)
      = .ok (some ⟨⟨1, 2, 1, 1, 1⟩, 1/10, 1⟩, true) ∧
    objectiveCheckpoint 2 (some ⟨⟨1, 2, 1, 1, 1⟩, 9/10, 4⟩) ⟨1, 2, 1, 1, 1⟩ (1/10)
      = .ok (some ⟨⟨1, 2, 1, 1, 1⟩, 9/10, 4⟩, false) :=
  ⟨(C2_checkpoint_overwrite_policy 1 ⟨⟨1, 2, 1, 1, 1⟩, 9/10, 4⟩
      ⟨1, 2, 1, 1, 1⟩ (1/10)).1 rfl,
   (C2_checkpoint_overwrite_policy 2 ⟨⟨1, 2, 1, 1, 1⟩, 9/10, 4⟩
      ⟨1, 2, 1, 1, 1⟩ (1/10)).2.2 (by norm_num) (by norm_num)⟩

/-- Invariant behind claim C9: once the checkpoint file holds state `st` and
`train_step` has passed 1, every later write within the run records a score
strictly above the last persisted one. -/
lemma runObjectives_writes_chain (f1s : Params → ℚ) :
    ∀ (sps : List SampledParams) (st : CheckpointState) (d dEnd : Detector)
      (fileEnd : Option CheckpointState) (writes : List ℚ),
      1 ≤ d.train_step →
      runObjectives f1s true d (some st) sps = .ok (dEnd, fileEnd, writes) →
      List.Chain' (· < ·) (st.f1 :: writes)
  | [], st, d, dEnd, fileEnd, writes, hstep, h => by
      simp only [runObjectives, Except.ok.injEq, Prod.mk.injEq] at h
      rw [← h.2.2]
      simp
  | sp :: rest, st, d, dEnd, fileEnd, writes, hstep, h => by
      have hne : ¬ d.train_step + 1 = 1 := by omega
      by_cases hgt : f1s (withMaxRad sp) > st.f1
      · rcases hrec : runObjectives f1s true { d with train_step := d.train_step + 1 }
            (some ⟨withMaxRad sp, f1s (withMaxRad sp), d.train_step + 1⟩) rest
          with e | ⟨dE, fE, ws⟩
        · simp [runObjectives, objectiveCheckpoint, hne, hgt, hrec] at h
        · simp only [runObjectives, objectiveCheckpoint, if_neg hne, if_pos hgt,
            hrec, eq_self_iff_true, if_true, Except.ok.injEq, Prod.mk.injEq] at h
          obtain ⟨rfl, rfl, rfl⟩ := h
          exact List.Chain'.cons hgt
            (runObjectives_writes_chain f1s rest
              ⟨withMaxRad sp, f1s (withMaxRad sp), d.train_step + 1⟩
              { d with train_step := d.train_step + 1 } _ _ _ (by simp) hrec)
      · rcases hrec : runObjectives f1s true { d with train_step := d.train_step + 1 }
            (some st) rest with e | ⟨dE, fE, ws⟩
        · simp [runObjectives, objectiveCheckpoint, hne, hgt, hrec] at h
        · simp only [runObjectives, objectiveCheckpoint, if_neg hne, if_neg hgt,
            hrec, Bool.false_eq_true, if_false, Except.ok.injEq, Prod.mk.injEq] at h
          obtain ⟨rfl, rfl, rfl⟩ := h
          exact runObjectives_writes_chain f1s rest st
            { d with train_step := d.train_step + 1 } _ _ _ (by simp) hrec

/-- C9: within one optimizer run starting from a fresh detector
(`train_step == 0`), the sequence of f1 scores written to the checkpoint
file is strictly increasing — the first write is unconditional and every
later write requires `f1 > state["f1"]`, the score persisted by the previous
write — hence monotonically non-decreasing. -/
theorem C9_checkpoint_scores_increasing (f1s : Params → ℚ) (d : Detector)
    (file : Option CheckpointState) (sps : List SampledParams)
    (dEnd : Detector) (fileEnd : Option CheckpointState) (writes : List ℚ)
    (hfresh : d.train_step = 0)
    (hrun : runObjectives f1s true d file sps = .ok (dEnd, fileEnd, writes)) :
    List.Chain' (· < ·) writes := by
  cases sps with
  | nil =>
      simp only [runObjectives, Except.ok.injEq, Prod.mk.injEq] at hrun
      rw [← hrun.2.2]
      simp
  | cons sp rest =>
      have h1 : d.train_step + 1 = 1 := by omega
      rcases hrec : runObjectives f1s true { d with train_step := 1 }
          (some ⟨withMaxRad sp, f1s (withMaxRad sp), 1⟩) rest
        with e | ⟨dE, fE, ws⟩
      · simp [runObjectives, objectiveCheckpoint, h1, hrec] at hrun
      · simp only [runObjectives, objectiveCheckpoint, h1, eq_self_iff_true,
          if_true, hrec, Except.ok.injEq, Prod.mk.injEq] at hrun
        obtain ⟨rfl, rfl, rfl⟩ := hrun
        exact runObjectives_writes_chain f1s rest
          ⟨withMaxRad sp, f1s (withMaxRad sp), 1⟩
          { d with train_step := 1 } _ _ _ (by simp) hrec

/-- C9 (witness): a three-candidate run with scores 1/2, 1/4, 3/4 writes
exactly the scores 1/2 then 3/4, a strictly increasing sequence. -/
theorem C9_checkpoint_scores_increasing_witness :
    List.Chain' (· < ·) [(1 : ℚ)/2, 3/4] :=
  C9_checkpoint_scores_increasing (fun p => p.threshold)
    (BlobDoG_init 2 [1] none) none
    [⟨1, 1, 1, 1, 1/2⟩, ⟨1, 1, 1, 1, 1/4⟩, ⟨1, 1, 1, 1, 3/4⟩]
    ⟨2, [1], none, 3, 7, 15, 14/10, 8/10, 5/100⟩
    (some ⟨⟨1, 1 + 1, 1, 1, 3/4⟩, 3/4, 3⟩) [(1 : ℚ)/2, 3/4] rfl
    (by norm_num [runObjectives, objectiveCheckpoint, withMaxRad, BlobDoG_init])

/-- C3 (counterexample): `fit` with `n_iter = 0` does not terminate
normally: hyperopt's `fmin` is asked for the argmin of zero trials and
raises, so `fit` ends in an error rather than returning with the
default/checkpointed parameters. -/
theorem C3_counterexample_zero_iterations_raises :
    fit (BlobDoG_init 2 [1] none) (fun _ => 0) true
        (some ⟨⟨7, 15, 14/10, 8/10, 5/100⟩, 9/10, 3⟩) []
      = .error "Exception: There are no evaluation tasks, cannot return argmin of task losses." :=
  rfl

/-- C3 (amended): running `fit` with `iterations = 0` evaluates no
candidate, so it leaves the detector's (default or checkpointed) parameters
untouched and performs no checkpoint write — but it does not terminate
normally: `fmin` cannot return an argmin of zero trials and the call ends
in an error. -/
theorem C3_zero_iterations_no_write_but_error (d : Detector)
    (f1s : Params → ℚ) (useCk : Bool) (file : Option CheckpointState) :
    runObjectives f1s useCk d file [] = .ok (d, file, []) ∧
    fit d f1s useCk file []
      = .error "Exception: There are no evaluation tasks, cannot return argmin of task losses." :=
  ⟨rfl, rfl⟩

lemma foldl_argmin_mem (loss : SampledParams → ℚ) :
    ∀ (l : List SampledParams) (sp : SampledParams),
      l.foldl (fun best c => if loss c < loss best then c else best) sp ∈ sp :: l
  | [], sp => by simp
  | c :: rest, sp => by
      simp only [List.foldl]
      by_cases h : loss c < loss sp
      · rw [if_pos h]
        have := foldl_argmin_mem loss rest c
        simp only [List.mem_cons] at this ⊢
        tauto
      · rw [if_neg h]
        have := foldl_argmin_mem loss rest sp
        simp only [List.mem_cons] at this ⊢
        tauto

lemma foldl_argmin_le (loss : SampledParams → ℚ) :
    ∀ (l : List SampledParams) (sp : SampledParams),
      ∀ x ∈ sp :: l,
        loss (l.foldl (fun best c => if loss c < loss best then c else best) sp)
          ≤ loss x
  | [], sp => by simp
  | c :: rest, sp => by
      intro x hx
      simp only [List.foldl]
      by_cases h : loss c < loss sp
      · rw [if_pos h]
        have ih := foldl_argmin_le loss rest c
        rcases List.mem_cons.mp hx with rfl | hx'
        · exact le_trans (ih c (List.mem_cons_self c rest)) (le_of_lt h)
        · rcases List.mem_cons.mp hx' with rfl | hx''
          · exact ih x (List.mem_cons_self x rest)
          · exact ih x (List.mem_cons_of_mem c hx'')
      · rw [if_neg h]
        have ih := foldl_argmin_le loss rest sp
        rcases List.mem_cons.mp hx with rfl | hx'
        · exact ih x (List.mem_cons_self x rest)
        · rcases List.mem_cons.mp hx' with rfl | hx''
          · exact le_trans (ih sp (List.mem_cons_self sp rest)) (le_of_not_lt h)
          · exact ih x (List.mem_cons_of_mem sp hx'')

lemma fminArgmin_spec (loss : SampledParams → ℚ) (l : List SampledParams)
    (best : SampledParams) (h : fminArgmin loss l = .ok best) :
    best ∈ l ∧ ∀ x ∈ l, loss best ≤ loss x := by
  cases l with
  | nil => cases h
  | cons a t =>
      injection h with h
      subst h
      exact ⟨foldl_argmin_mem loss t a, foldl_argmin_le loss t a⟩

/-- C4: every parameter set evaluated by the optimizer derives `max_rad` as
`min_rad + min_max_rad_diff` (blob_dog.py line 314), so a nonnegative
sampled difference forces `max_rad ≥ min_rad` structurally; and when `fit`
returns, the parameters installed in the detector (line 407) are those of an
evaluated draw whose objective f1 is maximal among all draws — the best
parameters found become the live parameters. -/
theorem C4_max_rad_structural_and_best_installed :
    (∀ sp : SampledParams, 0 ≤ sp.min_max_rad_diff →
      (withMaxRad sp).max_rad = sp.min_rad + sp.min_max_rad_diff ∧
      (withMaxRad sp).min_rad ≤ (withMaxRad sp).max_rad) ∧
    (∀ (d : Detector) (f1s : Params → ℚ) (useCk : Bool)
        (file : Option CheckpointState) (draws : List SampledParams)
        (dEnd : Detector) (fileEnd : Option CheckpointState),
      fit d f1s useCk file draws = .ok (dEnd, fileEnd) →
      ∃ best ∈ draws, get_parameters dEnd = withMaxRad best ∧
        ∀ sp ∈ draws, f1s (withMaxRad sp) ≤ f1s (withMaxRad best)) := by
  constructor
  · intro sp hd
    refine ⟨rfl, ?_⟩
    simp only [withMaxRad]
    linarith
  · intro d f1s useCk file draws dEnd fileEnd h
    rcases hobj : runObjectives f1s useCk d file draws with e | ⟨d', file', writes⟩
    · simp [fit, hobj] at h
    · rcases hmin : fminArgmin (fun sp => -(f1s (withMaxRad sp))) draws
        with e2 | best
      · simp [fit, hobj, hmin] at h
      · simp only [fit, hobj, hmin, Except.ok.injEq, Prod.mk.injEq] at h
        obtain ⟨h1, h2⟩ := h
        obtain ⟨hmem, hle⟩ := fminArgmin_spec _ _ _ hmin
        refine ⟨best, hmem, ?_, ?_⟩
        · rw [← h1]
          rfl
        · intro sp hsp
          have := hle sp hsp
          simpa using this

/-- C4 (witness): one draw with nonnegative difference; `fit` installs its
derived parameters into the detector and they are best among the single
draw. -/
theorem C4_max_rad_structural_and_best_installed_witness :
    ((withMaxRad ⟨3, 2, 1, 1, 1⟩).max_rad = 3 + 2 ∧
      (withMaxRad ⟨3, 2, 1, 1, 1⟩).min_rad ≤ (withMaxRad ⟨3, 2, 1, 1, 1⟩).max_rad) ∧
    (∃ best ∈ [(⟨3, 2, 1, 1, 1⟩ : SampledParams)],
      get_parameters (set_parameters
          { BlobDoG_init 2 [1] none with train_step := 1 }
          (withMaxRad ⟨3, 2, 1, 1, 1⟩)) = withMaxRad best ∧
      ∀ sp ∈ [(⟨3, 2, 1, 1, 1⟩ : SampledParams)],
        (fun _ => (0 : ℚ)) (withMaxRad sp)
          ≤ (fun _ => (0 : ℚ)) (withMaxRad best)) :=
  ⟨(C4_max_rad_structural_and_best_installed.1 ⟨3, 2, 1, 1, 1⟩ (by norm_num)).imp
      (fun h => h) (fun h => h),
   C4_max_rad_structural_and_best_installed.2 (BlobDoG_init 2 [1] none)
     (fun _ => 0) false none [⟨3, 2, 1, 1, 1⟩]
     (set_parameters { BlobDoG_init 2 [1] none with train_step := 1 }
       (withMaxRad ⟨3, 2, 1, 1, 1⟩)) none rfl⟩

end BCFind
